import Mathlib

/-!
# rosbag-viewer — verification of the bag ingestion and message-codec pipeline

Shallow embedding of `src/python-service` (rosbag_parser.py, main.py,
database.py).  Byte payloads are `List Nat` (each element a byte value);
IEEE-754 doubles are represented by their 64-bit little-endian bit
patterns (a `Nat`), which is exact for the bit-for-bit round-trip claims.
Python float division on the small integers appearing in progress and
frequency computations is modelled by `ℚ` (the quotients involved are
exactly representable, and only their order and equality matter here).
Fallible Python code that catches exceptions and returns `None` is
modelled by `Except DecodeErr` / `Except String`, with one error
constructor per distinct failure site in the source.
-/

namespace RosbagViewer

/-! ## Little-endian byte primitives (struct.unpack_from / struct.pack) -/

/-- Value of a little-endian byte list: `leVal [b0, b1, ...] = b0 + 256*b1 + ...`. -/
def leVal : List Nat → Nat
  | [] => 0
  | b :: bs => b + 256 * leVal bs

/-- `natLE w n` is the `w`-byte little-endian encoding of `n` (mod `256^w`). -/
def natLE : Nat → Nat → List Nat
  | 0, _ => []
  | w + 1, n => n % 256 :: natLE w (n / 256)

/-! ## Cursor reads

Each Python `struct.unpack_from('<…', data, offset)` checks that the
buffer holds enough bytes past `offset` and otherwise raises
`struct.error`, which the enclosing `try/except` turns into a decode
failure.  `TruncatedPayload` is the error of that code path. -/

/-- Decode failures, one constructor per failure site in the source
(`rosbag_parser.py`): out-of-bounds cursor reads (struct.error),
`cv2.imdecode` returning `None`, the `Unsupported encoding` branch, and
numpy `frombuffer/reshape` size mismatches. -/
inductive DecodeErr where
  | truncatedPayload
  | unsupportedImagePayload
  | unsupportedEncoding
  | reshapeMismatch
  deriving DecidableEq, Repr

/-- Read one unsigned byte at `off` (struct.unpack_from with format B). -/
def rdU8 (data : List Nat) (off : Nat) : Except DecodeErr Nat :=
  if off + 1 ≤ data.length then .ok (leVal ((data.drop off).take 1))
  else .error .truncatedPayload

/-- Read a 4-byte little-endian unsigned integer at `off` (format I). -/
def rdU32 (data : List Nat) (off : Nat) : Except DecodeErr Nat :=
  if off + 4 ≤ data.length then .ok (leVal ((data.drop off).take 4))
  else .error .truncatedPayload

/-- Read an 8-byte little-endian word at `off` (format d, kept as its
bit pattern). -/
def rdU64 (data : List Nat) (off : Nat) : Except DecodeErr Nat :=
  if off + 8 ≤ data.length then .ok (leVal ((data.drop off).take 8))
  else .error .truncatedPayload

/-! ## Substring tests (Python `in` on strings) -/

/-- Whether `p` occurs at the head of `l` (Python startswith, used to
build the substring test). -/
def startsWithSeq {α : Type} [BEq α] : List α → List α → Bool
  | [], _ => true
  | _ :: _, [] => false
  | a :: as, b :: bs => a == b && startsWithSeq as bs

/-- Whether `p` occurs contiguously anywhere in `l` (Python `p in s`). -/
def containsSeq {α : Type} [BEq α] (p : List α) : List α → Bool
  | [] => startsWithSeq p []
  | b :: bs => startsWithSeq p (b :: bs) || containsSeq p bs

/-- Python `pat in s` on strings. -/
def strContains (s pat : String) : Bool :=
  containsSeq pat.toList s.toList

/-! ## Message decoders (rosbag_parser.py)

The encoding comparison of `deserialize_image_message` happens on the
UTF-8 decoded string; every encoding the source compares against is
ASCII, so it is modelled byte-for-byte on the raw encoding field. -/

/-- ASCII bytes of the literal the source compares encodings against. -/
def bytesBGR8 : List Nat := [98, 103, 114, 56]

/-- ASCII bytes of rgb8. -/
def bytesRGB8 : List Nat := [114, 103, 98, 56]

/-- ASCII bytes of mono8. -/
def bytesMONO8 : List Nat := [109, 111, 110, 111, 56]

/-- ASCII bytes of 16UC1. -/
def bytes16UC1 : List Nat := [49, 54, 85, 67, 49]

/-- `deserialize_image_message`, CompressedImage branch: skip the 4-byte
CDR header, read the length-prefixed format string, hand the remaining
blob to the image codec (`cv2.imdecode`, an external capability passed
as `imdecode`, returning width × height). -/
def deserialize_compressed_image (imdecode : List Nat → Option (Nat × Nat))
    (data : List Nat) : Except DecodeErr (Nat × Nat) := do
  let formatLen ← rdU32 data 4
  let compressed := data.drop (8 + formatLen)
  match imdecode compressed with
  | some (w, h) => .ok (w, h)
  | none => .error .unsupportedImagePayload

/-- `deserialize_image_message`, raw Image branch: skip CDR header (4)
and stamp (8), read the length-prefixed frame_id, height, width, the
length-prefixed encoding, the endianness byte, row step and data length,
slice the pixel bytes (Python slicing truncates silently), then branch
on the encoding exactly as the source's if/elif chain does. -/
def deserialize_raw_image (data : List Nat) : Except DecodeErr (Nat × Nat) := do
  let frameIdLen ← rdU32 data 12
  let o := 16 + frameIdLen
  let height ← rdU32 data o
  let width ← rdU32 data (o + 4)
  let encodingLen ← rdU32 data (o + 8)
  let encoding := (data.drop (o + 12)).take encodingLen
  let o2 := o + 12 + encodingLen
  let _isBigendian ← rdU8 data o2
  let _step ← rdU32 data (o2 + 1)
  let dataLen ← rdU32 data (o2 + 5)
  let imageData := (data.drop (o2 + 9)).take dataLen
  if containsSeq bytesBGR8 encoding || containsSeq bytesRGB8 encoding then
    if imageData.length = height * width * 3 then .ok (width, height)
    else .error .reshapeMismatch
  else if containsSeq bytesMONO8 encoding then
    if imageData.length = height * width then .ok (width, height)
    else .error .reshapeMismatch
  else if containsSeq bytes16UC1 encoding then
    if imageData.length = 2 * (height * width) then .ok (width, height)
    else .error .reshapeMismatch
  else
    .error .unsupportedEncoding

/-- `deserialize_image_message`: dispatch on the declared message type
string exactly as the source does. -/
def deserialize_image_message (imdecode : List Nat → Option (Nat × Nat))
    (messageType : String) (data : List Nat) : Except DecodeErr (Nat × Nat) :=
  if strContains messageType "CompressedImage" then
    deserialize_compressed_image imdecode data
  else
    deserialize_raw_image data

/-- A decoded pose, each double held as its 64-bit bit pattern. -/
structure PoseBits where
  x : Nat
  y : Nat
  z : Nat
  qx : Nat
  qy : Nat
  qz : Nat
  qw : Nat
  deriving DecidableEq, Repr

/-- `deserialize_pose_message`: skip CDR header (4) and stamp (8), skip
the length-prefixed frame_id, then read three position doubles and four
quaternion doubles (x, y, z, w). -/
def deserialize_pose_message (data : List Nat) : Except DecodeErr PoseBits := do
  let frameIdLen ← rdU32 data 12
  let o := 16 + frameIdLen
  let x ← rdU64 data o
  let y ← rdU64 data (o + 8)
  let z ← rdU64 data (o + 16)
  let qx ← rdU64 data (o + 24)
  let qy ← rdU64 data (o + 32)
  let qz ← rdU64 data (o + 40)
  let qw ← rdU64 data (o + 48)
  .ok ⟨x, y, z, qx, qy, qz, qw⟩

/-- A decoded IMU sample, doubles as 64-bit bit patterns. -/
structure ImuBits where
  angX : Nat
  angY : Nat
  angZ : Nat
  linX : Nat
  linY : Nat
  linZ : Nat
  deriving DecidableEq, Repr

/-- `deserialize_imu_message`: skip CDR header, stamp and frame_id, skip
the orientation (4 doubles) and its covariance (9 doubles), read angular
velocity, skip its covariance, read linear acceleration. -/
def deserialize_imu_message (data : List Nat) : Except DecodeErr ImuBits := do
  let frameIdLen ← rdU32 data 12
  let o := 16 + frameIdLen + 32 + 72
  let angX ← rdU64 data o
  let angY ← rdU64 data (o + 8)
  let angZ ← rdU64 data (o + 16)
  let o2 := o + 24 + 72
  let linX ← rdU64 data o2
  let linY ← rdU64 data (o2 + 8)
  let linZ ← rdU64 data (o2 + 16)
  .ok ⟨angX, angY, angZ, linX, linY, linZ⟩

/-! ## BagStore reads (sqlite queries of rosbag_parser.py)

A stored `messages` row.  The per-topic SELECT orders by timestamp; the
store is modelled as already listing each topic's rows in ascending
timestamp order, so `ORDER BY timestamp` is the identity on the filtered
rows and `COUNT(*)` is unaffected by ordering. -/
structure BagRow where
  tid : Nat
  ts : Int
  data : List Nat
  deriving DecidableEq, Repr

/-- `SELECT COUNT(*) FROM messages WHERE topic_id = ?` (get_topic_info). -/
def topicMsgCount (rows : List BagRow) (t : Nat) : Nat :=
  rows.countP (fun r => r.tid == t)

/-- `SELECT timestamp, data FROM messages WHERE topic_id = ? ORDER BY timestamp`. -/
def topicMessages (rows : List BagRow) (t : Nat) : List (Int × List Nat) :=
  (rows.filter (fun r => r.tid == t)).map (fun r => (r.ts, r.data))

/-- SQL `MIN` aggregate over a column: `NULL` (`none`) on an empty set. -/
def sqlMin : List Int → Option Int
  | [] => none
  | x :: xs => some (xs.foldl min x)

/-- SQL `MAX` aggregate over a column: `NULL` (`none`) on an empty set. -/
def sqlMax : List Int → Option Int
  | [] => none
  | x :: xs => some (xs.foldl max x)

/-- The frequency computation of `get_topic_info`, given the topic's
stored message timestamps (integer nanoseconds).  The source computes
`duration = (last_time - first_time) / 1e9` and then
`count / duration if duration > 0 else 0`; when the topic has no rows,
MIN/MAX are `NULL` (`None`) and the subtraction raises a `TypeError`,
modelled as the error branch. -/
def get_topic_info_frequency (ts : List Int) : Except String ℚ :=
  match sqlMax ts, sqlMin ts with
  | some lastT, some firstT =>
    let duration : ℚ := ((lastT - firstT : Int) : ℚ) / 1000000000
    .ok (if 0 < duration then (ts.length : ℚ) / duration else 0)
  | _, _ => .error "TypeError: unsupported operand type(s) for -: NoneType"

/-! ## TopicProcessor (process_camera_topic / process_pose_topic /
process_imu_topic) -/

/-- One `frames_data` entry built by the camera loop.  The output file
path is `<topic_dir>/<timestamp>.jpg`, deterministic in the timestamp,
so the timestamp stands in for the path. -/
structure FrameRec where
  timestamp : Int
  seq : Nat
  width : Nat
  height : Nat
  deriving DecidableEq, Repr

/-- Loop state of `process_camera_topic`: the accumulated `frames_data`
list, the `cover_image_path` variable (identified by the timestamp of
the frame it points at), the image files written so far (`cv2.imwrite`
calls, identified by timestamp), and the fractions handed to the
progress callback. -/
structure CameraState where
  frames : List FrameRec
  cover : Option Int
  writes : List Int
  events : List ℚ
  deriving DecidableEq, Repr

/-- The `for idx, row in enumerate(messages)` loop of
`process_camera_topic`.  A failed decode executes `continue`, skipping
the write, the frame record, the cover assignment and the progress
callback; a successful decode at raw index `idx` writes the file,
appends a frame with `sequence_number := idx`, sets the cover when
`idx == 0`, and reports `idx / total_messages` when `idx % 10 == 0`. -/
def camera_loop (dec : List Nat → Option (Nat × Nat)) (total : Nat) :
    Nat → List (Int × List Nat) → CameraState → CameraState
  | _, [], st => st
  | idx, (ts, d) :: rest, st =>
    match dec d with
    | none => camera_loop dec total (idx + 1) rest st
    | some (w, h) =>
      camera_loop dec total (idx + 1) rest
        { frames := st.frames ++ [⟨ts, idx, w, h⟩]
          cover := if idx == 0 then some ts else st.cover
          writes := st.writes ++ [ts]
          events := if idx % 10 == 0 then st.events ++ [(idx : ℚ) / (total : ℚ)]
                    else st.events }

/-- Run the camera message loop on a topic's ordered messages from the
empty starting state. -/
def process_camera_msgs (dec : List Nat → Option (Nat × Nat))
    (msgs : List (Int × List Nat)) : CameraState :=
  camera_loop dec msgs.length 0 msgs ⟨[], none, [], []⟩

/-- The topic record handed to `db.create_topic`: `message_count` and
`frequency` come from `get_topic_info` (the stored-row statistics, not
the decode outcomes), `cover_image_path` from the loop. -/
structure TopicRecord where
  messageCount : Nat
  cover : Option Int
  deriving DecidableEq, Repr

/-- Result of `process_camera_topic` for topic id `t`: the persisted
topic record, the frame records passed to `db.bulk_insert_frames`, the
image files written, and the progress fractions reported. -/
structure CameraResult where
  record : TopicRecord
  frames : List FrameRec
  writes : List Int
  events : List ℚ
  deriving DecidableEq, Repr

/-- `process_camera_topic`: read the topic's messages in timestamp
order, run the decode loop, then create the topic record with the
stored-row message count. -/
def process_camera_topic (dec : List Nat → Option (Nat × Nat))
    (rows : List BagRow) (t : Nat) : CameraResult :=
  let st := process_camera_msgs dec (topicMessages rows t)
  { record := { messageCount := topicMsgCount rows t, cover := st.cover }
    frames := st.frames
    writes := st.writes
    events := st.events }

/-- An externally visible persistence action of `process_camera_topic`:
an image file written during the loop, the `db.create_topic` call, or
the `db.bulk_insert_frames` call. -/
inductive GatewayOp where
  | writeFrameFile (ts : Int)
  | createTopic (rec : TopicRecord)
  | insertFrames (frames : List FrameRec)
  deriving DecidableEq, Repr

/-- Whether an operation is a plain image-file write (no database row). -/
def GatewayOp.isFileWrite : GatewayOp → Bool
  | .writeFrameFile _ => true
  | _ => false

/-- The ordered persistence trace of one `process_camera_topic` call:
all `cv2.imwrite` calls happen inside the message loop, and only after
the loop finishes does the function call `db.create_topic` and then
`db.bulk_insert_frames` (which is a no-op on an empty batch).  An
unclassified error that aborts the loop truncates this trace inside its
file-write region. -/
def camera_topic_trace (dec : List Nat → Option (Nat × Nat))
    (rows : List BagRow) (t : Nat) : List GatewayOp :=
  let r := process_camera_topic dec rows t
  r.writes.map GatewayOp.writeFrameFile
    ++ [GatewayOp.createTopic r.record]
    ++ (if r.frames.isEmpty then [] else [GatewayOp.insertFrames r.frames])

/-- Result of `process_pose_topic`. -/
structure PoseResult where
  record : TopicRecord
  samples : List (Int × PoseBits)
  deriving DecidableEq, Repr

/-- `process_pose_topic`: decode every message, keep the successes as
the batch for `db.bulk_insert_pose_data`, create the topic record with
the stored-row count and no cover image. -/
def process_pose_topic (decp : List Nat → Option PoseBits)
    (rows : List BagRow) (t : Nat) : PoseResult :=
  { record := { messageCount := topicMsgCount rows t, cover := none }
    samples := (topicMessages rows t).filterMap
      (fun m => (decp m.2).map (fun p => (m.1, p))) }

/-- Result of `process_imu_topic`. -/
structure ImuResult where
  record : TopicRecord
  samples : List (Int × ImuBits)
  deriving DecidableEq, Repr

/-- `process_imu_topic`: symmetric to the pose topic. -/
def process_imu_topic (deci : List Nat → Option ImuBits)
    (rows : List BagRow) (t : Nat) : ImuResult :=
  { record := { messageCount := topicMsgCount rows t, cover := none }
    samples := (topicMessages rows t).filterMap
      (fun m => (deci m.2).map (fun p => (m.1, p))) }

/-! ## IngestionPipeline (process_all) -/

/-- The three topic classes of `process_all`. -/
inductive TopicKind where
  | camera
  | pose
  | imu
  deriving DecidableEq, Repr

/-- The fixed topic catalog of `process_all`, in processing order:
camera topics, then pose topics, then IMU topics. -/
def topic_catalog : List (String × TopicKind) :=
  [("/camera/camera/color/image_raw", .camera),
   ("/camera/camera/depth/image_rect_raw", .camera),
   ("/camera/camera/infra1/image_rect_raw", .camera),
   ("/camera/camera/infra2/image_rect_raw", .camera),
   ("/camera/pose", .pose),
   ("/camera/camera/imu", .imu)]

/-- `total_topics = len(camera_topics) + len(pose_topics) + len(imu_topics)`. -/
def totalTopics : Nat := topic_catalog.length

/-- A bag: the `topics` relation rows (id, name) and the `messages`
rows. -/
structure Bag where
  topics : List (Nat × String)
  rows : List BagRow
  deriving Repr

/-- One call to the progress observer, tagged by its call site: `sub`
for the within-camera-topic reports of `process_camera_topic`, `done`
for the after-topic reports of `process_all`.  The observer itself
receives only the fraction (`PEvent.val`). -/
inductive PEvent where
  | sub (q : ℚ)
  | done (q : ℚ)
  deriving DecidableEq, Repr

/-- The fraction delivered to the observer. -/
def PEvent.val : PEvent → ℚ
  | .sub q => q
  | .done q => q

/-- The sub-progress fractions a camera topic reports. -/
def camera_events (dec : List Nat → Option (Nat × Nat))
    (rows : List BagRow) (t : Nat) : List ℚ :=
  (process_camera_topic dec rows t).events

/-- The three topic loops of `process_all`, fused over the ordered
catalog: a topic present in the bag's `topics` relation is processed
(camera topics emit their sub-progress first), `processed` is
incremented, and `processed / total_topics` is reported; an absent
topic is skipped silently. -/
def run_topics (dec : List Nat → Option (Nat × Nat)) (bag : Bag) :
    List (String × TopicKind) → Nat → List PEvent
  | [], _ => []
  | (name, k) :: rest, processed =>
    match bag.topics.find? (fun p => p.2 == name) with
    | none => run_topics dec bag rest processed
    | some p =>
      (match k with
       | .camera => (camera_events dec bag.rows p.1).map PEvent.sub
       | _ => []) ++
      [PEvent.done (((processed : ℚ) + 1) / (totalTopics : ℚ))] ++
      run_topics dec bag rest (processed + 1)

/-- The full progress trace of `process_all` over a bag. -/
def process_all_events (dec : List Nat → Option (Nat × Nat)) (bag : Bag) :
    List PEvent :=
  run_topics dec bag topic_catalog 0

/-- Number of catalog topics present in the bag. -/
def presentCount (bag : Bag) (cat : List (String × TopicKind)) : Nat :=
  cat.countP (fun tk => (bag.topics.find? (fun p => p.2 == tk.1)).isSome)

/-- The values of the after-topic (`done`) reports of a trace. -/
def donesOf (evs : List PEvent) : List ℚ :=
  evs.filterMap (fun e => match e with | .done q => some q | .sub _ => none)

/-! ## Job status map (main.py) -/

/-- One `ProcessingStatus` record of the `processing_jobs` map. -/
structure ProcessingStatus where
  status : String
  progress : ℚ
  message : String
  deriving DecidableEq, Repr

/-- The writes `main.py` performs on a bag's `processing_jobs` entry:
the background task's initial store, the `update_progress` callback
(which only mutates `.progress`, keeping status and message), the
cancel endpoint's overwrite, the background task's final success
overwrite, and its exception-handler overwrite.  `process_bag_background`
never reads the entry between topics — no action is conditional on the
stored status. -/
inductive JobAction where
  | bgStart
  | progressCb (p : ℚ)
  | cancelReq
  | bgFinish
  | bgFail (msg : String)
  deriving DecidableEq, Repr

/-- Effect of one action on the bag's job entry, line for line from
`main.py`: `update_progress` guards on `bag_id in processing_jobs`, the
cancel endpoint returns 404 (map unchanged) when no entry exists, and
the terminal writes are unconditional. -/
def apply_job_action : Option ProcessingStatus → JobAction → Option ProcessingStatus
  | _, .bgStart => some ⟨"processing", 0, "Starting bag processing..."⟩
  | none, .progressCb _ => none
  | some s, .progressCb p => some { s with progress := p * 100 }
  | none, .cancelReq => none
  | some _, .cancelReq => some ⟨"failed", 0, "Processing cancelled by user"⟩
  | _, .bgFinish => some ⟨"completed", 100, "Bag processing completed successfully"⟩
  | _, .bgFail m => some ⟨"failed", 0, m⟩

/-- Replay a sequence of `main.py` writes against an initially absent
job entry. -/
def run_job (acts : List JobAction) : Option ProcessingStatus :=
  acts.foldl apply_job_action none

/-- The observed write sequence for a two-topic bag whose processing is
cancelled between the topics: the background task starts the job,
reports the first topic's completion, the cancel endpoint fires, the
background task — which never checks for cancellation — keeps
processing, reports the second topic, and unconditionally stores the
completed status. -/
def cancelled_mid_bag_trace : List JobAction :=
  [.bgStart, .progressCb (1 / 6), .cancelReq, .progressCb (1 / 3), .bgFinish]

/-! ## Synthetic payload builders (for the codec claims) -/

/-- The condition of the raw-image encoding if/elif chain: the encoding
contains one of bgr8, rgb8, mono8, 16UC1. -/
def supported_encoding (enc : List Nat) : Bool :=
  containsSeq bytesBGR8 enc || containsSeq bytesRGB8 enc
    || containsSeq bytesMONO8 enc || containsSeq bytes16UC1 enc

/-- A synthetic pose payload: 4-byte preamble, 8-byte stamp, the
length-prefixed frame id, then seven little-endian 8-byte doubles
(position x, y, z and quaternion x, y, z, w bit patterns). -/
def mkPosePayload (pre stamp fid : List Nat) (x y z qx qy qz qw : Nat) : List Nat :=
  pre ++ stamp ++ natLE 4 fid.length ++ fid
    ++ natLE 8 x ++ natLE 8 y ++ natLE 8 z
    ++ natLE 8 qx ++ natLE 8 qy ++ natLE 8 qz ++ natLE 8 qw

/-- A synthetic raw-image payload: 12 header bytes (CDR preamble and
stamp), length-prefixed frame id, height, width, length-prefixed
encoding, endianness byte, row step, pixel-data length, pixel bytes. -/
def mkRawImagePayload (hdr fid : List Nat) (height width : Nat)
    (encoding : List Nat) (bigend rowStep dataLen : Nat) (px : List Nat) :
    List Nat :=
  hdr ++ natLE 4 fid.length ++ fid ++ natLE 4 height ++ natLE 4 width
    ++ natLE 4 encoding.length ++ encoding ++ [bigend]
    ++ natLE 4 rowStep ++ natLE 4 dataLen ++ px

/-! ## Concrete instances used by counterexamples and witnesses -/

/-- A decoder that succeeds on every payload (all messages decodable). -/
def decAlways : List Nat → Option (Nat × Nat) := fun _ => some (1, 1)

/-- A decoder failing exactly on the payload `[2]` (the third message
below), succeeding elsewhere. -/
def dec3fail : List Nat → Option (Nat × Nat) :=
  fun d => if d = [2] then none else some (2, 2)

/-- A decoder failing exactly on the payload `[0]` (the first message
below), succeeding elsewhere. -/
def decFailFirst : List Nat → Option (Nat × Nat) :=
  fun d => if d = [0] then none else some (1, 1)

/-- Five stored messages of topic 7, payloads identifying positions. -/
def rowsFive : List BagRow :=
  [⟨7, 0, [0]⟩, ⟨7, 1, [1]⟩, ⟨7, 2, [2]⟩, ⟨7, 3, [3]⟩, ⟨7, 4, [4]⟩]

/-- Two stored messages of topic 3. -/
def rowsTwo : List BagRow :=
  [⟨3, 10, [0]⟩, ⟨3, 20, [1]⟩]

/-- A bag containing two camera topics, one message each. -/
def bagTwoCams : Bag :=
  { topics := [(1, "/camera/camera/color/image_raw"),
               (2, "/camera/camera/depth/image_rect_raw")]
    rows := [⟨1, 100, [0]⟩, ⟨2, 200, [0]⟩] }

/-! ## Helper lemmas: little-endian bytes and cursor reads -/

theorem length_natLE (w n : Nat) : (natLE w n).length = w := by
  induction w generalizing n with
  | zero => rfl
  | succ w ih => simp [natLE, ih]

theorem leVal_natLE (w n : Nat) : leVal (natLE w n) = n % 256 ^ w := by
  induction w generalizing n with
  | zero => simp [natLE, leVal, Nat.mod_one]
  | succ w ih =>
    simp only [natLE, leVal, ih]
    rw [pow_succ, mul_comm (256 ^ w) 256, Nat.mod_mul]

theorem leVal_natLE_of_lt {w n : Nat} (h : n < 256 ^ w) : leVal (natLE w n) = n := by
  rw [leVal_natLE, Nat.mod_eq_of_lt h]

theorem exbind_ok {ε α β : Type} (a : α) (f : α → Except ε β) :
    (Except.ok a >>= f) = f a := rfl

theorem exbind_err {ε α β : Type} (e : ε) (f : α → Except ε β) :
    ((Except.error e : Except ε α) >>= f) = Except.error e := rfl

theorem rdU8_peel (a b : List Nat) : rdU8 (a ++ b) a.length = rdU8 b 0 := by
  unfold rdU8
  rw [List.drop_left, List.length_append, List.drop_zero]
  by_cases h : 0 + 1 ≤ b.length
  · rw [if_pos (by omega), if_pos h]
  · rw [if_neg (by omega), if_neg h]

theorem rdU32_peel (a b : List Nat) : rdU32 (a ++ b) a.length = rdU32 b 0 := by
  unfold rdU32
  rw [List.drop_left, List.length_append, List.drop_zero]
  by_cases h : 0 + 4 ≤ b.length
  · rw [if_pos (by omega), if_pos h]
  · rw [if_neg (by omega), if_neg h]

theorem rdU64_peel (a b : List Nat) : rdU64 (a ++ b) a.length = rdU64 b 0 := by
  unfold rdU64
  rw [List.drop_left, List.length_append, List.drop_zero]
  by_cases h : 0 + 8 ≤ b.length
  · rw [if_pos (by omega), if_pos h]
  · rw [if_neg (by omega), if_neg h]

theorem rdU32_at0 (v : Nat) (b : List Nat) :
    rdU32 (natLE 4 v ++ b) 0 = .ok (v % 256 ^ 4) := by
  unfold rdU32
  rw [if_pos (by simp [List.length_append, length_natLE])]
  rw [List.drop_zero, List.take_append_of_le_length (by rw [length_natLE]),
    List.take_of_length_le (by rw [length_natLE]), leVal_natLE]

theorem rdU32_at0_of_lt {v : Nat} (b : List Nat) (h : v < 256 ^ 4) :
    rdU32 (natLE 4 v ++ b) 0 = .ok v := by
  rw [rdU32_at0, Nat.mod_eq_of_lt h]

theorem rdU64_at0_of_lt {v : Nat} (b : List Nat) (h : v < 256 ^ 8) :
    rdU64 (natLE 8 v ++ b) 0 = .ok v := by
  unfold rdU64
  rw [if_pos (by simp [List.length_append, length_natLE])]
  rw [List.drop_zero, List.take_append_of_le_length (by rw [length_natLE]),
    List.take_of_length_le (by rw [length_natLE]), leVal_natLE_of_lt h]

theorem rdU8_at0 (v : Nat) (b : List Nat) : rdU8 (v :: b) 0 = .ok v := by
  unfold rdU8
  rw [if_pos (by simp)]
  simp [List.take, leVal]

theorem rdU32_err (data : List Nat) (off : Nat) (h : data.length < off + 4) :
    rdU32 data off = .error .truncatedPayload := by
  unfold rdU32
  rw [if_neg (by omega)]

/-! ## Pose decode round-trip -/

theorem pose_payload_read_fid (pre stamp fid : List Nat) (x y z qx qy qz qw : Nat)
    (hpre : pre.length = 4) (hstamp : stamp.length = 8) (hfid : fid.length < 256 ^ 4) :
    rdU32 (mkPosePayload pre stamp fid x y z qx qy qz qw) 12 = .ok fid.length := by
  have e : mkPosePayload pre stamp fid x y z qx qy qz qw
      = (pre ++ stamp) ++ (natLE 4 fid.length ++ (fid ++ (natLE 8 x ++ (natLE 8 y
          ++ (natLE 8 z ++ (natLE 8 qx ++ (natLE 8 qy ++ (natLE 8 qz ++ natLE 8 qw)))))))) := by
    simp [mkPosePayload, List.append_assoc]
  have hl : (pre ++ stamp).length = 12 := by
    simp only [List.length_append, hpre, hstamp]
  rw [e, ← hl, rdU32_peel, rdU32_at0_of_lt _ hfid]

theorem rdU64_lead (lead tail : List Nat) (v off : Nat)
    (hoff : lead.length = off) (hv : v < 256 ^ 8) :
    rdU64 (lead ++ (natLE 8 v ++ tail)) off = .ok v := by
  rw [← hoff, rdU64_peel, rdU64_at0_of_lt _ hv]

theorem rdU32_lead (lead tail : List Nat) (v off : Nat)
    (hoff : lead.length = off) (hv : v < 256 ^ 4) :
    rdU32 (lead ++ (natLE 4 v ++ tail)) off = .ok v := by
  rw [← hoff, rdU32_peel, rdU32_at0_of_lt _ hv]

theorem rdU32_lead_mod (lead tail : List Nat) (v off : Nat) (hoff : lead.length = off) :
    rdU32 (lead ++ (natLE 4 v ++ tail)) off = .ok (v % 256 ^ 4) := by
  rw [← hoff, rdU32_peel, rdU32_at0]

theorem rdU8_lead (lead tail : List Nat) (v off : Nat) (hoff : lead.length = off) :
    rdU8 (lead ++ (v :: tail)) off = .ok v := by
  rw [← hoff, rdU8_peel, rdU8_at0]

/-- Claim C7: pose decode round-trip.  For every synthetic pose payload —
4-byte preamble, 8-byte stamp, length-prefixed frame identifier, then
seven little-endian 8-byte doubles (position x, y, z, quaternion
x, y, z, w) — `deserialize_pose_message` returns exactly those seven
64-bit patterns, bit for bit. -/
theorem pose_decode_roundtrip (pre stamp fid : List Nat) (x y z qx qy qz qw : Nat)
    (hpre : pre.length = 4) (hstamp : stamp.length = 8) (hfid : fid.length < 256 ^ 4)
    (hx : x < 256 ^ 8) (hy : y < 256 ^ 8) (hz : z < 256 ^ 8) (hqx : qx < 256 ^ 8)
    (hqy : qy < 256 ^ 8) (hqz : qz < 256 ^ 8) (hqw : qw < 256 ^ 8) :
    deserialize_pose_message (mkPosePayload pre stamp fid x y z qx qy qz qw)
      = .ok ⟨x, y, z, qx, qy, qz, qw⟩ := by
  have h0 := pose_payload_read_fid pre stamp fid x y z qx qy qz qw hpre hstamp hfid
  have h1 : rdU64 (mkPosePayload pre stamp fid x y z qx qy qz qw)
      (16 + fid.length) = .ok x := by
    have e : mkPosePayload pre stamp fid x y z qx qy qz qw
        = (pre ++ (stamp ++ (natLE 4 fid.length ++ fid)))
          ++ (natLE 8 x ++ (natLE 8 y ++ (natLE 8 z ++ (natLE 8 qx
            ++ (natLE 8 qy ++ (natLE 8 qz ++ natLE 8 qw)))))) := by
      simp [mkPosePayload, List.append_assoc]
    rw [e]
    exact rdU64_lead _ _ _ _
      (by simp only [List.length_append, hpre, hstamp, length_natLE]; omega) hx
  have h2 : rdU64 (mkPosePayload pre stamp fid x y z qx qy qz qw)
      (16 + fid.length + 8) = .ok y := by
    have e : mkPosePayload pre stamp fid x y z qx qy qz qw
        = (pre ++ (stamp ++ (natLE 4 fid.length ++ (fid ++ natLE 8 x))))
          ++ (natLE 8 y ++ (natLE 8 z ++ (natLE 8 qx
            ++ (natLE 8 qy ++ (natLE 8 qz ++ natLE 8 qw))))) := by
      simp [mkPosePayload, List.append_assoc]
    rw [e]
    exact rdU64_lead _ _ _ _
      (by simp only [List.length_append, hpre, hstamp, length_natLE]; omega) hy
  have h3 : rdU64 (mkPosePayload pre stamp fid x y z qx qy qz qw)
      (16 + fid.length + 16) = .ok z := by
    have e : mkPosePayload pre stamp fid x y z qx qy qz qw
        = (pre ++ (stamp ++ (natLE 4 fid.length ++ (fid ++ (natLE 8 x ++ natLE 8 y)))))
          ++ (natLE 8 z ++ (natLE 8 qx ++ (natLE 8 qy ++ (natLE 8 qz ++ natLE 8 qw)))) := by
      simp [mkPosePayload, List.append_assoc]
    rw [e]
    exact rdU64_lead _ _ _ _
      (by simp only [List.length_append, hpre, hstamp, length_natLE]; omega) hz
  have h4 : rdU64 (mkPosePayload pre stamp fid x y z qx qy qz qw)
      (16 + fid.length + 24) = .ok qx := by
    have e : mkPosePayload pre stamp fid x y z qx qy qz qw
        = (pre ++ (stamp ++ (natLE 4 fid.length
            ++ (fid ++ (natLE 8 x ++ (natLE 8 y ++ natLE 8 z))))))
          ++ (natLE 8 qx ++ (natLE 8 qy ++ (natLE 8 qz ++ natLE 8 qw))) := by
      simp [mkPosePayload, List.append_assoc]
    rw [e]
    exact rdU64_lead _ _ _ _
      (by simp only [List.length_append, hpre, hstamp, length_natLE]; omega) hqx
  have h5 : rdU64 (mkPosePayload pre stamp fid x y z qx qy qz qw)
      (16 + fid.length + 32) = .ok qy := by
    have e : mkPosePayload pre stamp fid x y z qx qy qz qw
        = (pre ++ (stamp ++ (natLE 4 fid.length
            ++ (fid ++ (natLE 8 x ++ (natLE 8 y ++ (natLE 8 z ++ natLE 8 qx)))))))
          ++ (natLE 8 qy ++ (natLE 8 qz ++ natLE 8 qw)) := by
      simp [mkPosePayload, List.append_assoc]
    rw [e]
    exact rdU64_lead _ _ _ _
      (by simp only [List.length_append, hpre, hstamp, length_natLE]; omega) hqy
  have h6 : rdU64 (mkPosePayload pre stamp fid x y z qx qy qz qw)
      (16 + fid.length + 40) = .ok qz := by
    have e : mkPosePayload pre stamp fid x y z qx qy qz qw
        = (pre ++ (stamp ++ (natLE 4 fid.length
            ++ (fid ++ (natLE 8 x ++ (natLE 8 y ++ (natLE 8 z
              ++ (natLE 8 qx ++ natLE 8 qy))))))))
          ++ (natLE 8 qz ++ natLE 8 qw) := by
      simp [mkPosePayload, List.append_assoc]
    rw [e]
    exact rdU64_lead _ _ _ _
      (by simp only [List.length_append, hpre, hstamp, length_natLE]; omega) hqz
  have h7 : rdU64 (mkPosePayload pre stamp fid x y z qx qy qz qw)
      (16 + fid.length + 48) = .ok qw := by
    have e : mkPosePayload pre stamp fid x y z qx qy qz qw
        = (pre ++ (stamp ++ (natLE 4 fid.length
            ++ (fid ++ (natLE 8 x ++ (natLE 8 y ++ (natLE 8 z
              ++ (natLE 8 qx ++ (natLE 8 qy ++ natLE 8 qz)))))))))
          ++ (natLE 8 qw ++ []) := by
      simp [mkPosePayload, List.append_assoc]
    rw [e]
    exact rdU64_lead _ _ _ _
      (by simp only [List.length_append, hpre, hstamp, length_natLE]; omega) hqw
  simp only [deserialize_pose_message, h0, exbind_ok, h1, h2, h3, h4, h5, h6, h7]

/-- Witness for C7: the concrete payload of the spec example — position
(1.0, 2.0, 3.0), quaternion (0.0, 0.0, 0.0, 1.0) — decodes to exactly
those IEEE-754 bit patterns (1.0 = 0x3FF0000000000000 =
4607182418800017408, 2.0 = 4611686018427387904, 3.0 =
4613937818241073152). -/
theorem pose_decode_roundtrip_witness :
    deserialize_pose_message (mkPosePayload [0, 0, 0, 0] [0, 0, 0, 0, 0, 0, 0, 0] []
        4607182418800017408 4611686018427387904 4613937818241073152 0 0 0
        4607182418800017408)
      = .ok ⟨4607182418800017408, 4611686018427387904, 4613937818241073152, 0, 0, 0,
          4607182418800017408⟩ :=
  pose_decode_roundtrip [0, 0, 0, 0] [0, 0, 0, 0, 0, 0, 0, 0] []
    4607182418800017408 4611686018427387904 4613937818241073152 0 0 0 4607182418800017408
    (by decide) (by decide) (by decide) (by decide) (by decide) (by decide) (by decide)
    (by decide) (by decide) (by decide)

/-! ## Camera loop characterization -/

theorem camera_loop_frames_length (dec : List Nat → Option (Nat × Nat)) (total : Nat) :
    ∀ (msgs : List (Int × List Nat)) (idx : Nat) (st : CameraState),
    (camera_loop dec total idx msgs st).frames.length
      = st.frames.length + msgs.countP (fun m => (dec m.2).isSome) := by
  intro msgs
  induction msgs with
  | nil => intro idx st; simp [camera_loop]
  | cons m rest ih =>
    intro idx st
    obtain ⟨ts, d⟩ := m
    simp only [camera_loop]
    cases h : dec d with
    | none => rw [ih]; simp [List.countP_cons, h]
    | some wh =>
      obtain ⟨w, hgt⟩ := wh
      rw [ih]
      simp [List.countP_cons, h]
      omega

/-- Claim C6: every decoder fails with the truncated-payload error on
any payload shorter than the 4-byte preamble (no out-of-bounds read, no
unhandled exception), and such failures are non-fatal to the topic: the
camera loop emits exactly one frame per successful decode, whatever the
failures in between. -/
theorem short_payload_truncated :
    (∀ (imdecode : List Nat → Option (Nat × Nat)) (mt : String) (data : List Nat),
      data.length < 4 →
      deserialize_image_message imdecode mt data = .error .truncatedPayload)
    ∧ (∀ data : List Nat, data.length < 4 →
      deserialize_pose_message data = .error .truncatedPayload)
    ∧ (∀ data : List Nat, data.length < 4 →
      deserialize_imu_message data = .error .truncatedPayload)
    ∧ (∀ (dec : List Nat → Option (Nat × Nat)) (msgs : List (Int × List Nat)),
      (process_camera_msgs dec msgs).frames.length
        = msgs.countP (fun m => (dec m.2).isSome)) := by
  refine ⟨?_, ?_, ?_, ?_⟩
  · intro imdecode mt data h
    unfold deserialize_image_message
    by_cases hc : strContains mt "CompressedImage"
    · simp [hc, deserialize_compressed_image, rdU32_err data 4 (by omega), exbind_err]
    · simp [hc, deserialize_raw_image, rdU32_err data 12 (by omega), exbind_err]
  · intro data h
    simp [deserialize_pose_message, rdU32_err data 12 (by omega), exbind_err]
  · intro data h
    simp [deserialize_imu_message, rdU32_err data 12 (by omega), exbind_err]
  · intro dec msgs
    unfold process_camera_msgs
    rw [camera_loop_frames_length]
    simp

/-- Witness for C6 at concrete inputs: the empty payload is rejected by
all three decoders. -/
theorem short_payload_truncated_witness :
    ([] : List Nat).length < 4
    ∧ deserialize_image_message (fun _ => none) "sensor_msgs/msg/Image" []
        = .error .truncatedPayload
    ∧ deserialize_pose_message [] = .error .truncatedPayload
    ∧ deserialize_imu_message [] = .error .truncatedPayload :=
  ⟨by decide,
   short_payload_truncated.1 (fun _ => none) "sensor_msgs/msg/Image" [] (by decide),
   short_payload_truncated.2.1 [] (by decide),
   short_payload_truncated.2.2.1 [] (by decide)⟩

/-- Claim C9: a well-formed raw-image payload whose pixel-encoding
string matches none of bgr8/rgb8 (3-channel 8-bit), mono8 (1-channel
8-bit) or 16UC1 (1-channel 16-bit) is rejected with exactly the
unsupported-encoding error — not a truncation, image-codec or reshape
error — and such a failure only skips its own message: messages after
it in the topic are still processed (frame emitted per success on both
sides of the failing message). -/
theorem unsupported_encoding_rejected :
    (∀ (hdr fid encoding : List Nat) (height width bigend rowStep dataLen : Nat)
      (px : List Nat),
      hdr.length = 12 → fid.length < 256 ^ 4 → encoding.length < 256 ^ 4 →
      supported_encoding encoding = false →
      deserialize_raw_image
          (mkRawImagePayload hdr fid height width encoding bigend rowStep dataLen px)
        = .error .unsupportedEncoding)
    ∧ (∀ (dec : List Nat → Option (Nat × Nat)) (before after : List (Int × List Nat))
      (bad : Int × List Nat), dec bad.2 = none →
      (process_camera_msgs dec (before ++ bad :: after)).frames.length
        = before.countP (fun m => (dec m.2).isSome)
          + after.countP (fun m => (dec m.2).isSome)) := by
  constructor
  · intro hdr fid encoding height width bigend rowStep dataLen px hhdr hfid henc hsup
    have r0 : rdU32 (mkRawImagePayload hdr fid height width encoding bigend rowStep dataLen px)
        12 = .ok fid.length := by
      have e : mkRawImagePayload hdr fid height width encoding bigend rowStep dataLen px
          = hdr ++ (natLE 4 fid.length ++ (fid ++ (natLE 4 height ++ (natLE 4 width
            ++ (natLE 4 encoding.length ++ (encoding ++ (bigend :: (natLE 4 rowStep
              ++ (natLE 4 dataLen ++ px))))))))) := by
        simp [mkRawImagePayload, List.append_assoc]
      rw [e]
      exact rdU32_lead _ _ _ _ hhdr hfid
    have r1 : rdU32 (mkRawImagePayload hdr fid height width encoding bigend rowStep dataLen px)
        (16 + fid.length) = .ok (height % 256 ^ 4) := by
      have e : mkRawImagePayload hdr fid height width encoding bigend rowStep dataLen px
          = (hdr ++ (natLE 4 fid.length ++ fid)) ++ (natLE 4 height ++ (natLE 4 width
            ++ (natLE 4 encoding.length ++ (encoding ++ (bigend :: (natLE 4 rowStep
              ++ (natLE 4 dataLen ++ px))))))) := by
        simp [mkRawImagePayload, List.append_assoc]
      rw [e]
      exact rdU32_lead_mod _ _ _ _
        (by simp only [List.length_append, hhdr, length_natLE]; omega)
    have r2 : rdU32 (mkRawImagePayload hdr fid height width encoding bigend rowStep dataLen px)
        (16 + fid.length + 4) = .ok (width % 256 ^ 4) := by
      have e : mkRawImagePayload hdr fid height width encoding bigend rowStep dataLen px
          = (hdr ++ (natLE 4 fid.length ++ (fid ++ natLE 4 height))) ++ (natLE 4 width
            ++ (natLE 4 encoding.length ++ (encoding ++ (bigend :: (natLE 4 rowStep
              ++ (natLE 4 dataLen ++ px)))))) := by
        simp [mkRawImagePayload, List.append_assoc]
      rw [e]
      exact rdU32_lead_mod _ _ _ _
        (by simp only [List.length_append, hhdr, length_natLE]; omega)
    have r3 : rdU32 (mkRawImagePayload hdr fid height width encoding bigend rowStep dataLen px)
        (16 + fid.length + 8) = .ok encoding.length := by
      have e : mkRawImagePayload hdr fid height width encoding bigend rowStep dataLen px
          = (hdr ++ (natLE 4 fid.length ++ (fid ++ (natLE 4 height ++ natLE 4 width))))
            ++ (natLE 4 encoding.length ++ (encoding ++ (bigend :: (natLE 4 rowStep
              ++ (natLE 4 dataLen ++ px))))) := by
        simp [mkRawImagePayload, List.append_assoc]
      rw [e]
      exact rdU32_lead _ _ _ _
        (by simp only [List.length_append, hhdr, length_natLE]; omega) henc
    have r4 : ((mkRawImagePayload hdr fid height width encoding bigend rowStep dataLen
        px).drop (16 + fid.length + 12)).take encoding.length = encoding := by
      have e : mkRawImagePayload hdr fid height width encoding bigend rowStep dataLen px
          = (hdr ++ (natLE 4 fid.length ++ (fid ++ (natLE 4 height ++ (natLE 4 width
            ++ natLE 4 encoding.length)))))
            ++ (encoding ++ (bigend :: (natLE 4 rowStep ++ (natLE 4 dataLen ++ px)))) := by
        simp [mkRawImagePayload, List.append_assoc]
      have hl : (hdr ++ (natLE 4 fid.length ++ (fid ++ (natLE 4 height ++ (natLE 4 width
          ++ natLE 4 encoding.length))))).length = 16 + fid.length + 12 := by
        simp only [List.length_append, hhdr, length_natLE]; omega
      rw [e, ← hl, List.drop_left, List.take_left]
    have r5 : rdU8 (mkRawImagePayload hdr fid height width encoding bigend rowStep dataLen px)
        (16 + fid.length + 12 + encoding.length) = .ok bigend := by
      have e : mkRawImagePayload hdr fid height width encoding bigend rowStep dataLen px
          = (hdr ++ (natLE 4 fid.length ++ (fid ++ (natLE 4 height ++ (natLE 4 width
            ++ (natLE 4 encoding.length ++ encoding))))))
            ++ (bigend :: (natLE 4 rowStep ++ (natLE 4 dataLen ++ px))) := by
        simp [mkRawImagePayload, List.append_assoc]
      rw [e]
      exact rdU8_lead _ _ _ _
        (by simp only [List.length_append, hhdr, length_natLE]; omega)
    have r6 : rdU32 (mkRawImagePayload hdr fid height width encoding bigend rowStep dataLen px)
        (16 + fid.length + 12 + encoding.length + 1) = .ok (rowStep % 256 ^ 4) := by
      have e : mkRawImagePayload hdr fid height width encoding bigend rowStep dataLen px
          = (hdr ++ (natLE 4 fid.length ++ (fid ++ (natLE 4 height ++ (natLE 4 width
            ++ (natLE 4 encoding.length ++ (encoding ++ [bigend])))))))
            ++ (natLE 4 rowStep ++ (natLE 4 dataLen ++ px)) := by
        simp [mkRawImagePayload, List.append_assoc]
      rw [e]
      exact rdU32_lead_mod _ _ _ _
        (by simp only [List.length_append, hhdr, length_natLE, List.length_cons,
          List.length_nil]; omega)
    have r7 : rdU32 (mkRawImagePayload hdr fid height width encoding bigend rowStep dataLen px)
        (16 + fid.length + 12 + encoding.length + 5) = .ok (dataLen % 256 ^ 4) := by
      have e : mkRawImagePayload hdr fid height width encoding bigend rowStep dataLen px
          = (hdr ++ (natLE 4 fid.length ++ (fid ++ (natLE 4 height ++ (natLE 4 width
            ++ (natLE 4 encoding.length ++ (encoding ++ (bigend :: natLE 4 rowStep))))))))
            ++ (natLE 4 dataLen ++ px) := by
        simp [mkRawImagePayload, List.append_assoc]
      rw [e]
      exact rdU32_lead_mod _ _ _ _
        (by simp only [List.length_append, hhdr, length_natLE, List.length_cons]; omega)
    have hb : containsSeq bytesBGR8 encoding = false ∧ containsSeq bytesRGB8 encoding = false
        ∧ containsSeq bytesMONO8 encoding = false
        ∧ containsSeq bytes16UC1 encoding = false := by
      simpa [supported_encoding, Bool.or_eq_false_iff, and_assoc] using hsup
    simp only [deserialize_raw_image, r0, exbind_ok, r1, r2, r3, r4, r5, r6, r7,
      hb.1, hb.2.1, hb.2.2.1, hb.2.2.2, Bool.or_self, Bool.false_or, if_false,
      Bool.false_eq_true, ite_false]
  · intro dec before after bad hbad
    unfold process_camera_msgs
    rw [camera_loop_frames_length]
    simp [List.countP_append, List.countP_cons, hbad]

/-- Witness for C9 at a concrete input: a payload declaring encoding
yuv422 (bytes 121,117,118,52,50,50) is rejected as unsupported, and a
topic whose middle message fails still yields one frame for each of the
surrounding successes. -/
theorem unsupported_encoding_rejected_witness :
    (List.replicate 12 0).length = 12
    ∧ deserialize_raw_image (mkRawImagePayload (List.replicate 12 0) [] 1 1
        [121, 117, 118, 52, 50, 50] 0 2 2 [0, 0]) = .error .unsupportedEncoding
    ∧ (process_camera_msgs dec3fail ([(0, [0])] ++ (2, [2]) :: [(4, [4])])).frames.length
        = 1 + 1 :=
  ⟨by decide,
   unsupported_encoding_rejected.1 (List.replicate 12 0) [] [121, 117, 118, 52, 50, 50]
     1 1 0 2 2 [0, 0] (by decide) (by decide) (by decide) (by decide),
   unsupported_encoding_rejected.2 dec3fail [(0, [0])] [(4, [4])] (2, [2]) (by decide)⟩

theorem camera_loop_frames (dec : List Nat → Option (Nat × Nat)) (total : Nat) :
    ∀ (msgs : List (Int × List Nat)) (idx : Nat) (st : CameraState),
    (camera_loop dec total idx msgs st).frames
      = st.frames ++ (List.enumFrom idx msgs).filterMap
          (fun p => (dec p.2.2).map (fun wh => (⟨p.2.1, p.1, wh.1, wh.2⟩ : FrameRec))) := by
  intro msgs
  induction msgs with
  | nil => intro idx st; simp [camera_loop, List.enumFrom]
  | cons m rest ih =>
    intro idx st
    obtain ⟨ts, d⟩ := m
    simp only [camera_loop, List.enumFrom]
    cases h : dec d with
    | none => rw [ih]; simp [h]
    | some wh =>
      obtain ⟨w, hgt⟩ := wh
      rw [ih]
      simp [h, List.append_assoc]

theorem frames_filterMap_map_seq (dec : List Nat → Option (Nat × Nat)) :
    ∀ (l : List (Nat × (Int × List Nat))),
    (l.filterMap
        (fun p => (dec p.2.2).map (fun wh => (⟨p.2.1, p.1, wh.1, wh.2⟩ : FrameRec)))).map
        FrameRec.seq
      = (l.filter (fun p => (dec p.2.2).isSome)).map Prod.fst := by
  intro l
  induction l with
  | nil => simp
  | cons p rest ih =>
    cases h : dec p.2.2 with
    | none => simp [List.filterMap_cons, List.filter_cons, h, ih]
    | some wh => simp [List.filterMap_cons, List.filter_cons, h, ih]

theorem camera_loop_cover_stable (dec : List Nat → Option (Nat × Nat)) (total : Nat) :
    ∀ (msgs : List (Int × List Nat)) (idx : Nat) (st : CameraState), 0 < idx →
    (camera_loop dec total idx msgs st).cover = st.cover := by
  intro msgs
  induction msgs with
  | nil => intro idx st _; simp [camera_loop]
  | cons m rest ih =>
    intro idx st hpos
    obtain ⟨ts, d⟩ := m
    simp only [camera_loop]
    cases h : dec d with
    | none => simp only [h]; exact ih (idx + 1) st (by omega)
    | some wh =>
      obtain ⟨w, hgt⟩ := wh
      simp only [h]
      rw [ih (idx + 1) _ (by omega)]
      simp [Nat.pos_iff_ne_zero.mp hpos]

/-- Corrected C1: each emitted frame's sequence number is the frame's
0-based index among the RAW stored messages of the topic (the loop
variable of `enumerate(messages)`), not its index among the successful
decodes; the emitted numbers are strictly increasing but keep the gap
of every failed message. -/
theorem sequence_numbers_are_raw_indices (dec : List Nat → Option (Nat × Nat))
    (rows : List BagRow) (t : Nat) :
    (process_camera_topic dec rows t).frames.map FrameRec.seq
      = ((topicMessages rows t).enum.filter (fun p => (dec p.2.2).isSome)).map Prod.fst
    ∧ List.Pairwise (· < ·) ((process_camera_topic dec rows t).frames.map FrameRec.seq) := by
  have hmain : (process_camera_topic dec rows t).frames.map FrameRec.seq
      = ((topicMessages rows t).enum.filter (fun p => (dec p.2.2).isSome)).map Prod.fst := by
    simp only [process_camera_topic, process_camera_msgs]
    rw [camera_loop_frames]
    simp only [List.nil_append]
    exact frames_filterMap_map_seq dec _
  refine ⟨hmain, ?_⟩
  rw [hmain]
  have henum : ((topicMessages rows t).enum).Pairwise (fun a b => a.1 < b.1) := by
    rw [← List.pairwise_map (f := Prod.fst)]
    rw [List.enum_map_fst]
    exact List.pairwise_lt_range _
  exact (List.pairwise_map (f := Prod.fst)).mpr (henum.filter _)

/-- Counterexample to C1 as stated: five stored messages of which the
third (raw index 2) fails to decode yield four frames with sequence
numbers 0, 1, 3, 4 — not the gap-free 0, 1, 2, 3 = range 4 the claim
requires. -/
theorem sequence_numbers_gap_counterexample :
    (process_camera_topic dec3fail rowsFive 7).frames.length = 4
    ∧ (process_camera_topic dec3fail rowsFive 7).frames.map FrameRec.seq = [0, 1, 3, 4]
    ∧ (process_camera_topic dec3fail rowsFive 7).frames.map FrameRec.seq
        ≠ List.range 4 := by
  refine ⟨by decide, by decide, by decide⟩

/-- Corrected C3: the cover image is set if and only if the FIRST raw
stored message of the topic decodes successfully (the `idx == 0` test),
in which case it is that message's frame; when the first message fails
to decode, no cover is set even if later messages decode. -/
theorem cover_is_first_message_frame (dec : List Nat → Option (Nat × Nat))
    (rows : List BagRow) (t : Nat) :
    (process_camera_topic dec rows t).record.cover
      = match topicMessages rows t with
        | [] => none
        | m :: _ => if (dec m.2).isSome then some m.1 else none := by
  simp only [process_camera_topic, process_camera_msgs]
  cases hm : topicMessages rows t with
  | nil => simp [camera_loop]
  | cons m rest =>
    obtain ⟨ts, d⟩ := m
    simp only [camera_loop]
    cases h : dec d with
    | none =>
      simp only [h]
      rw [camera_loop_cover_stable dec _ rest 1 _ (by omega)]
      simp [h]
    | some wh =>
      obtain ⟨w, hgt⟩ := wh
      simp only [h]
      rw [camera_loop_cover_stable dec _ rest 1 _ (by omega)]
      simp [h]

/-- Counterexample to C3 as stated: a topic whose first message fails to
decode but whose second decodes has one successfully decoded frame yet
no cover image. -/
theorem cover_missing_counterexample :
    (process_camera_topic decFailFirst rowsTwo 3).record.cover = none
    ∧ (process_camera_topic decFailFirst rowsTwo 3).frames.length = 1 := by
  refine ⟨by decide, by decide⟩

/-- Claim C8: for each of the three topic processors the persisted
topic record's message count equals the number of stored message rows
of that topic, independently of the decoders (which are universally
quantified and absent from the right-hand side). -/
theorem message_count_equals_stored_rows (dec : List Nat → Option (Nat × Nat))
    (decp : List Nat → Option PoseBits) (deci : List Nat → Option ImuBits)
    (rows : List BagRow) (t : Nat) :
    (process_camera_topic dec rows t).record.messageCount
        = (rows.filter (fun r => r.tid == t)).length
    ∧ (process_pose_topic decp rows t).record.messageCount
        = (rows.filter (fun r => r.tid == t)).length
    ∧ (process_imu_topic deci rows t).record.messageCount
        = (rows.filter (fun r => r.tid == t)).length := by
  refine ⟨?_, ?_, ?_⟩ <;>
    simp [process_camera_topic, process_pose_topic, process_imu_topic, topicMsgCount,
      List.countP_eq_length_filter]

/-- Claim C10: the persistence trace of a camera topic is all file
writes up to the end of the message loop; `db.create_topic` and
`db.bulk_insert_frames` come only after it, so a mid-loop abort (any
prefix no longer than the loop's file writes) leaves no topic record
and no frame rows in the gateway — written image files are the only
residue. -/
theorem no_gateway_rows_on_mid_topic_abort (dec : List Nat → Option (Nat × Nat))
    (rows : List BagRow) (t : Nat) (k : Nat)
    (h : k ≤ (process_camera_topic dec rows t).writes.length) :
    ∀ op ∈ (camera_topic_trace dec rows t).take k, op.isFileWrite = true := by
  intro op hop
  simp only [camera_topic_trace, List.append_assoc] at hop
  rw [List.take_append_of_le_length (by simpa using h)] at hop
  have hmem := List.take_subset _ _ hop
  obtain ⟨ts, _, rfl⟩ := List.mem_map.mp hmem
  rfl

/-- Witness for C10: aborting after the first of two file writes leaves
a trace prefix containing only file writes. -/
theorem no_gateway_rows_on_mid_topic_abort_witness :
    1 ≤ (process_camera_topic decAlways rowsTwo 3).writes.length
    ∧ ∀ op ∈ (camera_topic_trace decAlways rowsTwo 3).take 1, op.isFileWrite = true :=
  ⟨by decide, no_gateway_rows_on_mid_topic_abort decAlways rowsTwo 3 1 (by decide)⟩

/-! ## Frequency computation (C2) -/

/-- Counterexample to C2 as stated: a topic present in the `topics`
relation with zero stored messages does not get frequency 0 — SQL MIN
and MAX are NULL and the duration subtraction raises a TypeError. -/
theorem zero_message_topic_frequency_error :
    get_topic_info_frequency []
      = .error "TypeError: unsupported operand type(s) for -: NoneType" := rfl

/-- Corrected C2: for every topic with at least one stored message the
frequency is a defined number with no division error — exactly 0 when
the topic has a single message (first timestamp equals last), and
count divided by the duration in seconds otherwise (100 messages over
exactly 10 seconds give 10); a topic with zero messages instead raises
a TypeError before the division is reached. -/
theorem frequency_defined_for_nonempty :
    (∀ t : Int, get_topic_info_frequency [t] = .ok 0)
    ∧ (∀ ts : List Int, ts ≠ [] → (get_topic_info_frequency ts).isOk = true)
    ∧ get_topic_info_frequency (List.replicate 99 0 ++ [10000000000]) = .ok 10 := by
  refine ⟨?_, ?_, ?_⟩
  · intro t
    simp [get_topic_info_frequency, sqlMin, sqlMax]
  · intro ts hne
    cases ts with
    | nil => exact absurd rfl hne
    | cons a l => simp [get_topic_info_frequency, sqlMin, sqlMax, Except.isOk, Except.toBool]
  · have h1 : sqlMin (List.replicate 99 0 ++ [10000000000]) = some 0 := by
      set_option maxRecDepth 4000 in decide
    have h2 : sqlMax (List.replicate 99 0 ++ [10000000000]) = some 10000000000 := by
      set_option maxRecDepth 4000 in decide
    have h3 : (List.replicate 99 0 ++ [10000000000]).length = 100 := by
      set_option maxRecDepth 4000 in decide
    simp only [get_topic_info_frequency, h1, h2, h3]
    norm_num

/-- Witness for C2 at a concrete input: a one-element timestamp list is
nonempty and yields a defined frequency. -/
theorem frequency_defined_for_nonempty_witness :
    ([5] : List Int) ≠ [] ∧ (get_topic_info_frequency [5]).isOk = true :=
  ⟨by decide, frequency_defined_for_nonempty.2.1 [5] (by decide)⟩

/-! ## Cancellation (C4) -/

/-- C4 failing-trace evaluation: a cancel request between the two
topics of a bag does put the job entry into the failed/cancelled
state, but the background task neither observes it nor stops — its
unconditional final write replaces the entry with the completed status
at progress 100, so the Failed(Cancelled) state is not a sink. -/
theorem cancelled_status_overwritten_by_completion :
    run_job (cancelled_mid_bag_trace.take 3)
        = some ⟨"failed", 0, "Processing cancelled by user"⟩
    ∧ run_job cancelled_mid_bag_trace
        = some ⟨"completed", 100, "Bag processing completed successfully"⟩
    ∧ ("completed" : String) ≠ "failed" := by
  refine ⟨rfl, rfl, by decide⟩

/-! ## Progress monotonicity (C5) -/

theorem donesOf_append (a b : List PEvent) : donesOf (a ++ b) = donesOf a ++ donesOf b := by
  simp [donesOf]

theorem donesOf_map_sub (l : List ℚ) : donesOf (l.map PEvent.sub) = [] := by
  simp [donesOf, List.filterMap_map, Function.comp]

theorem donesOf_done_cons (e : ℚ) (l : List PEvent) :
    donesOf (PEvent.done e :: l) = e :: donesOf l := by
  simp [donesOf]

theorem donesOf_nil : donesOf [] = [] := rfl

/-- The after-topic progress reports of `process_all` over any suffix of
the catalog, starting from `p` already-processed topics, are exactly
`(p + i + 1) / total_topics` for `i` ranging over the topics present. -/
theorem run_topics_dones (dec : List Nat → Option (Nat × Nat)) (bag : Bag) :
    ∀ (cat : List (String × TopicKind)) (p : Nat),
    donesOf (run_topics dec bag cat p)
      = (List.range (presentCount bag cat)).map
          (fun i : Nat => ((p : ℚ) + (i : ℚ) + 1) / (totalTopics : ℚ)) := by
  intro cat
  induction cat with
  | nil => intro p; simp [run_topics, donesOf, presentCount]
  | cons tk rest ih =>
    intro p
    obtain ⟨name, k⟩ := tk
    simp only [run_topics]
    cases hf : bag.topics.find? (fun q => q.2 == name) with
    | none =>
      rw [ih]
      have hpc : presentCount bag ((name, k) :: rest) = presentCount bag rest := by
        simp [presentCount, List.countP_cons, hf]
      rw [hpc]
    | some q =>
      have hpc : presentCount bag ((name, k) :: rest) = presentCount bag rest + 1 := by
        simp [presentCount, List.countP_cons, hf]
      cases k <;>
        simp only [donesOf_append, donesOf_map_sub, donesOf_nil, List.nil_append,
          List.singleton_append, donesOf_done_cons, ih (p + 1), hpc, List.range_succ_eq_map,
          List.map_cons, List.map_map]
      all_goals congr 1
      all_goals
        first
        | exact List.map_congr_left fun i _ => by simp only [Function.comp]; push_cast; ring
        | norm_num

/-- Counterexample to C5 as stated: with two camera topics of one
decodable message each, the trace of observer fractions is
[0, 1/6, 0, 1/3] — the first topic ends with the completion value 1/6,
and the very next report (the second topic's first within-topic
fraction, 0/1) is 0 < 1/6, so progress decreases across the topic
boundary. -/
theorem progress_decreases_across_topic_boundary :
    (process_all_events decAlways bagTwoCams).map PEvent.val = [0, 1 / 6, 0, 1 / 3]
    ∧ ((process_all_events decAlways bagTwoCams).map PEvent.val).getD 2 1
        < ((process_all_events decAlways bagTwoCams).map PEvent.val).getD 1 0 := by
  have h : (process_all_events decAlways bagTwoCams).map PEvent.val = [0, 1 / 6, 0, 1 / 3] := by
    simp [process_all_events, run_topics, topic_catalog, camera_events, process_camera_topic,
      process_camera_msgs, camera_loop, topicMessages, topicMsgCount, bagTwoCams, decAlways,
      totalTopics, PEvent.val, List.find?, List.filter]
    norm_num
  refine ⟨h, ?_⟩
  rw [h]
  norm_num [List.getD]

/-- Corrected C5: what does hold across topic boundaries — for every
bag and decoder, the after-topic completion values reported by
`process_all` (the k-th processed topic reports k / total_topics) are
strictly increasing; only the within-camera-topic sub-reports, which
restart at the raw fraction 0/total_messages, can fall below an earlier
completion value. -/
theorem topic_completion_progress_strictly_increasing
    (dec : List Nat → Option (Nat × Nat)) (bag : Bag) :
    List.Pairwise (· < ·) (donesOf (process_all_events dec bag)) := by
  have h : process_all_events dec bag = run_topics dec bag topic_catalog 0 := rfl
  rw [h, run_topics_dones, List.pairwise_map]
  have hT : (0 : ℚ) < (totalTopics : ℚ) := by norm_num [totalTopics, topic_catalog]
  refine List.Pairwise.imp ?_ (List.pairwise_lt_range _)
  intro i j hij
  have hnum : ((0 : Nat) : ℚ) + (i : ℚ) + 1 < ((0 : Nat) : ℚ) + (j : ℚ) + 1 := by
    push_cast
    have : (i : ℚ) < (j : ℚ) := by exact_mod_cast hij
    linarith
  exact (div_lt_div_iff_of_pos_right hT).mpr hnum

end RosbagViewer
